import Mathlib

/-!
Verification of the per-year spreadsheet ingestion pipeline of the
GHG_Emissions_Prediction notebook.  The notebook reads, for each configured
year, the two sheets named `<year>_Detail_Commodity` and
`<year>_Detail_Industry` from one workbook, tags each resulting table with a
Source label and the Year, strips whitespace from column headers, renames the
code/name columns to a common pair of names, concatenates the two tables and
appends the result to an accumulator list; after the loop all accumulated
tables are concatenated into one combined table.  Failures while ingesting a
year are caught, logged and skipped.

Tables are embedded as a list of column names plus a list of rows, and the
dataframe operations used by the notebook (scalar column assignment, header
strip, header rename, concatenation with column alignment) are embedded
directly below.
-/

namespace GHG

/-- A cell value: missing (NaN), a string, or a number.  The ingestion code
only ever writes string and integer cells itself; alignment of mismatched
schemas during concatenation introduces missing cells. -/
inductive Value where
  | nan : Value
  | str : String → Value
  | nat : Nat → Value
deriving DecidableEq, Repr

/-- A table row, aligned positionally with the table's column list. -/
abbrev Row := List Value

/-- A dataframe: ordered column names and ordered rows. -/
structure DataFrame where
  cols : List String
  rows : List Row
deriving DecidableEq, Repr

/-- A rectangular dataframe: every row has one cell per column.  Frames
produced by the external spreadsheet reader always satisfy this. -/
def WellFormed (df : DataFrame) : Prop :=
  ∀ r ∈ df.rows, r.length = df.cols.length

/-- Boolean version of `WellFormed`, for concrete evaluation. -/
def wellFormedB (df : DataFrame) : Bool :=
  df.rows.all (fun r => r.length == df.cols.length)

/-- A workbook: named sheets. -/
abbrev Workbook := List (String × DataFrame)

/-- Whitespace test used by header stripping. -/
def isSpaceChar (c : Char) : Bool := c.isWhitespace

/-- List-level strip: drop leading and trailing whitespace characters. -/
def stripList (l : List Char) : List Char :=
  ((l.dropWhile isSpaceChar).reverse.dropWhile isSpaceChar).reverse

/-- Header stripping, the embedding of the str.strip() call on column
labels: drop leading and trailing whitespace characters. -/
def stripStr (s : String) : String :=
  String.mk (stripList s.data)

/-- Scalar column assignment, the embedding of the statement df[c] = v: if
column c exists, overwrite its cell in every row; otherwise append a new
column named c at the end, holding v in every row. -/
def setColumn (df : DataFrame) (c : String) (v : Value) : DataFrame :=
  if c ∈ df.cols then
    ⟨df.cols, df.rows.map (fun r => r.set (df.cols.indexOf c) v)⟩
  else
    ⟨df.cols ++ [c], df.rows.map (fun r => r ++ [v])⟩

/-- Embedding of df.columns = df.columns.str.strip(). -/
def stripColumns (df : DataFrame) : DataFrame :=
  ⟨df.cols.map stripStr, df.rows⟩

/-- Embedding of df.rename(columns=m): relabel the columns listed in m,
leave every other label unchanged, never touch the rows. -/
def renameColumns (df : DataFrame) (m : List (String × String)) : DataFrame :=
  ⟨df.cols.map (fun c => match m.lookup c with
      | some c2 => c2
      | none => c),
   df.rows⟩

/-- Cell lookup by column name: the cell of row r under the first column
named c, or a missing value when the table has no such column. -/
def getCell (cols : List String) (r : Row) (c : String) : Value :=
  if c ∈ cols then r.getD (cols.indexOf c) Value.nan else Value.nan

/-- Realign one row from a source column list to a target column list,
filling missing columns with missing values.  This is the row-level content
of column alignment during concatenation. -/
def reindexRow (src tgt : List String) (r : Row) : Row :=
  tgt.map (getCell src r)

/-- Extend an ordered column union with the yet-unseen names of cs. -/
def addCols (acc : List String) (cs : List String) : List String :=
  cs.foldl (fun a c => if c ∈ a then a else a ++ [c]) acc

/-- Ordered union of the column lists of several frames, first occurrence
order, as the outer-join axis of concatenation. -/
def unionCols (dfs : List DataFrame) : List String :=
  dfs.foldl (fun a df => addCols a df.cols) []

/-- Embedding of pd.concat(dfs, ignore_index=True): refuse an empty list
(the library raises there), otherwise stack every frame's rows in order,
each row realigned to the ordered union of the column lists. -/
def concatDF (dfs : List DataFrame) : Except String DataFrame :=
  match dfs with
  | [] => Except.error "No objects to concatenate"
  | _ =>
    Except.ok ⟨unionCols dfs,
      (dfs.map (fun df => df.rows.map (reindexRow df.cols (unionCols dfs)))).flatten⟩

/-- Embedding of pd.read_excel(excel_file, sheet_name=name) against an open
workbook: return the named sheet, or fail as the reader does when the
worksheet is absent. -/
def readSheet (wb : Workbook) (name : String) : Except String DataFrame :=
  match wb.lookup name with
  | some df => Except.ok df
  | none => Except.error ("Worksheet named " ++ name ++ " not found")

/-- The commodity sheet name for a year, from the formatted-string literal in
the notebook. -/
def comSheetName (y : Nat) : String := toString y ++ "_Detail_Commodity"

/-- The industry sheet name for a year. -/
def indSheetName (y : Nat) : String := toString y ++ "_Detail_Industry"

/-- The rename mapping applied to the commodity table. -/
def commodityRename : List (String × String) :=
  [("Commodity Code", "Code"), ("Commodity Name", "Name")]

/-- The rename mapping applied to the industry table. -/
def industryRename : List (String × String) :=
  [("Industry Code", "Code"), ("Industry Name", "Name")]

/-- The per-year transformation of the commodity sheet, in the notebook's
order: tag Source, tag Year, strip headers, rename the code/name columns. -/
def normalizeCom (year : Nat) (df : DataFrame) : DataFrame :=
  renameColumns
    (stripColumns
      (setColumn (setColumn df "Source" (Value.str "Commodity")) "Year" (Value.nat year)))
    commodityRename

/-- The per-year transformation of the industry sheet. -/
def normalizeInd (year : Nat) (df : DataFrame) : DataFrame :=
  renameColumns
    (stripColumns
      (setColumn (setColumn df "Source" (Value.str "Industry")) "Year" (Value.nat year)))
    industryRename

/-- One year of the try-block: read the two sheets, normalize both, and
concatenate them into the single table that the loop appends.  Any failure
escapes as an error, exactly the exception the loop body catches. -/
def processYear (wb : Workbook) (year : Nat) : Except String DataFrame :=
  match readSheet wb (comSheetName year) with
  | Except.error e => Except.error e
  | Except.ok dfc =>
    match readSheet wb (indSheetName year) with
    | Except.error e => Except.error e
    | Except.ok dfi => concatDF [normalizeCom year dfc, normalizeInd year dfi]

/-- The diagnostic printed by the except-branch of the loop body. -/
def errMsg (year : Nat) (e : String) : String :=
  "Error processing year " ++ toString year ++ ": " ++ e

/-- The mutable state of the ingestion loop: the all_data accumulator and
the log of printed diagnostics. -/
structure IngestState where
  all_data : List DataFrame
  log : List String
deriving DecidableEq, Repr

/-- One iteration of the ingestion loop: on success append the year's table
to all_data, on failure print the diagnostic and leave all_data alone. -/
def ingestStep (wb : Workbook) (st : IngestState) (year : Nat) : IngestState :=
  match processYear wb year with
  | Except.ok df => ⟨st.all_data ++ [df], st.log⟩
  | Except.error e => ⟨st.all_data, st.log ++ [errMsg year e]⟩

/-- The whole ingestion loop, starting from the empty accumulator. -/
def ingestLoop (wb : Workbook) (years : List Nat) : IngestState :=
  years.foldl (ingestStep wb) ⟨[], []⟩

/-- Whether ingestion of one year succeeds. -/
def ingestOk (wb : Workbook) (year : Nat) : Bool :=
  match processYear wb year with
  | Except.ok _ => true
  | Except.error _ => false

/-- Recursive characterization of the accumulator contents. -/
def ingestList (wb : Workbook) : List Nat → List DataFrame
  | [] => []
  | y :: ys =>
    match processYear wb y with
    | Except.ok df => df :: ingestList wb ys
    | Except.error _ => ingestList wb ys

/-- Recursive characterization of the printed diagnostics. -/
def ingestLog (wb : Workbook) : List Nat → List String
  | [] => []
  | y :: ys =>
    match processYear wb y with
    | Except.ok _ => ingestLog wb ys
    | Except.error e => errMsg y e :: ingestLog wb ys

/-- The table a successful year contributes (dummy empty table otherwise). -/
def yearEntry (wb : Workbook) (y : Nat) : DataFrame :=
  match processYear wb y with
  | Except.ok df => df
  | Except.error _ => ⟨[], []⟩

/-- The post-loop step df = pd.concat(all_data, ignore_index=True). -/
def combined (wb : Workbook) (years : List Nat) : Except String DataFrame :=
  concatDF (ingestLoop wb years).all_data

/-- The normalized rows contributed by a year's commodity sheet. -/
def comRows (wb : Workbook) (y : Nat) : List Row :=
  match readSheet wb (comSheetName y) with
  | Except.ok df => (normalizeCom y df).rows
  | Except.error _ => []

/-- The normalized rows contributed by a year's industry sheet. -/
def indRows (wb : Workbook) (y : Nat) : List Row :=
  match readSheet wb (indSheetName y) with
  | Except.ok df => (normalizeInd y df).rows
  | Except.error _ => []

/-- Row count of a sheet as read, zero when the read fails. -/
def sheetRowCount (wb : Workbook) (name : String) : Nat :=
  match readSheet wb name with
  | Except.ok df => df.rows.length
  | Except.error _ => 0

/-- Sum of per-sheet row counts over the successfully read (year, kind)
pairs: a sheet whose read fails contributes zero. -/
def readPairsSum (wb : Workbook) (years : List Nat) : Nat :=
  (years.map (fun y => sheetRowCount wb (comSheetName y) + sheetRowCount wb (indSheetName y))).sum

/-- Sum of per-sheet row counts over the (year, kind) pairs of the years
whose whole ingestion succeeds. -/
def ingestedPairsSum (wb : Workbook) (years : List Nat) : Nat :=
  ((years.filter (fun y => ingestOk wb y)).map
    (fun y => sheetRowCount wb (comSheetName y) + sheetRowCount wb (indSheetName y))).sum

/-- Modelled from the spec: the fixed column set of a year's Detail_Commodity
sheet, as displayed by the notebook's own sample output.  The workbook itself
is an external input of the program, so its schema is taken from the spec and
from the sheet preview embedded in the notebook. -/
def commoditySchema : List String :=
  ["Commodity Code", "Commodity Name", "Substance", "Unit",
   "Supply Chain Emission Factors without Margins",
   "Margins of Supply Chain Emission Factors",
   "Supply Chain Emission Factors with Margins", "Unnamed: 7",
   "DQ ReliabilityScore of Factors without Margins",
   "DQ TemporalCorrelation of Factors without Margins",
   "DQ GeographicalCorrelation of Factors without Margins",
   "DQ TechnologicalCorrelation of Factors without Margins",
   "DQ DataCollection of Factors without Margins"]

/-- Modelled from the spec: the fixed column set of a year's Detail_Industry
sheet, identical to the commodity schema except for the code/name labels. -/
def industrySchema : List String :=
  ["Industry Code", "Industry Name", "Substance", "Unit",
   "Supply Chain Emission Factors without Margins",
   "Margins of Supply Chain Emission Factors",
   "Supply Chain Emission Factors with Margins", "Unnamed: 7",
   "DQ ReliabilityScore of Factors without Margins",
   "DQ TemporalCorrelation of Factors without Margins",
   "DQ GeographicalCorrelation of Factors without Margins",
   "DQ TechnologicalCorrelation of Factors without Margins",
   "DQ DataCollection of Factors without Margins"]

/-- The common column list both sheets carry after tagging, stripping and
renaming: the unified schema of the combined table. -/
def unifiedCols : List String :=
  ["Code", "Name", "Substance", "Unit",
   "Supply Chain Emission Factors without Margins",
   "Margins of Supply Chain Emission Factors",
   "Supply Chain Emission Factors with Margins", "Unnamed: 7",
   "DQ ReliabilityScore of Factors without Margins",
   "DQ TemporalCorrelation of Factors without Margins",
   "DQ GeographicalCorrelation of Factors without Margins",
   "DQ TechnologicalCorrelation of Factors without Margins",
   "DQ DataCollection of Factors without Margins", "Source", "Year"]

/-- Whether the commodity sheet a workbook offers for a year, if present, is
rectangular and carries the documented commodity schema. -/
def goodComSheet (wb : Workbook) (y : Nat) : Bool :=
  match readSheet wb (comSheetName y) with
  | Except.ok df => decide (df.cols = commoditySchema) && wellFormedB df
  | Except.error _ => true

/-- Whether the industry sheet a workbook offers for a year, if present, is
rectangular and carries the documented industry schema. -/
def goodIndSheet (wb : Workbook) (y : Nat) : Bool :=
  match readSheet wb (indSheetName y) with
  | Except.ok df => decide (df.cols = industrySchema) && wellFormedB df
  | Except.error _ => true

/-- A sample data row matching the thirteen-column sheet schemas. -/
def rowEx : Row :=
  [Value.str "1111A0", Value.str "Fresh soybeans", Value.str "carbon dioxide",
   Value.str "kg", Value.nat 0, Value.nat 0, Value.nat 0, Value.nan,
   Value.nat 3, Value.nat 2, Value.nat 1, Value.nat 4, Value.nat 1]

/-- A sample commodity sheet with the documented schema and one row. -/
def comSheetEx : DataFrame := ⟨commoditySchema, [rowEx]⟩

/-- A sample industry sheet with the documented schema and one row. -/
def indSheetEx : DataFrame := ⟨industrySchema, [rowEx]⟩

/-- A sample workbook holding all four sheets for the years 2015 and 2016. -/
def wbFull : Workbook :=
  [("2015_Detail_Commodity", comSheetEx), ("2015_Detail_Industry", indSheetEx),
   ("2016_Detail_Commodity", comSheetEx), ("2016_Detail_Industry", indSheetEx)]

/-- The combined table the pipeline produces from the sample workbook. -/
def combinedFull : DataFrame :=
  match combined wbFull [2015, 2016] with
  | Except.ok d => d
  | Except.error _ => ⟨[], []⟩

/-- A minimal commodity sheet with a reduced schema, for counterexamples
that need no schema assumption. -/
def comSheetSmall : DataFrame :=
  ⟨["Commodity Code", "Commodity Name"], [[Value.str "1111A0", Value.str "Fresh soybeans"]]⟩

/-- A minimal industry sheet with a reduced schema. -/
def indSheetSmall : DataFrame :=
  ⟨["Industry Code", "Industry Name"], [[Value.str "1111A0", Value.str "Soybean farming"]]⟩

/-- A workbook holding both sheets for the single year 2015. -/
def wbOneYear : Workbook :=
  [("2015_Detail_Commodity", comSheetSmall), ("2015_Detail_Industry", indSheetSmall)]

/-- The combined table the pipeline produces from the one-year workbook. -/
def combinedOneYear : DataFrame :=
  match combined wbOneYear [2015] with
  | Except.ok d => d
  | Except.error _ => ⟨[], []⟩

/-- A workbook where the 2015 industry sheet is absent while the 2015
commodity sheet and both 2016 sheets are present. -/
def wbMixed : Workbook :=
  [("2015_Detail_Commodity", comSheetSmall),
   ("2016_Detail_Commodity", comSheetSmall), ("2016_Detail_Industry", indSheetSmall)]

/-- The combined table the pipeline produces from the mixed workbook. -/
def combinedMixed : DataFrame :=
  match combined wbMixed [2015, 2016] with
  | Except.ok d => d
  | Except.error _ => ⟨[], []⟩

/-! Basic structure of the ingestion loop. -/

theorem foldl_ingestStep (wb : Workbook) (ys : List Nat) (st : IngestState) :
    ys.foldl (ingestStep wb) st
      = ⟨st.all_data ++ ingestList wb ys, st.log ++ ingestLog wb ys⟩ := by
  induction ys generalizing st with
  | nil => simp [ingestList, ingestLog]
  | cons y ys ih =>
    cases h : processYear wb y with
    | ok df =>
      simp [List.foldl_cons, ingestStep, h, ih, ingestList, ingestLog]
    | error e =>
      simp [List.foldl_cons, ingestStep, h, ih, ingestList, ingestLog]

theorem ingestLoop_eq (wb : Workbook) (ys : List Nat) :
    ingestLoop wb ys = ⟨ingestList wb ys, ingestLog wb ys⟩ := by
  simpa using foldl_ingestStep wb ys ⟨[], []⟩

theorem ingestList_append (wb : Workbook) (ys1 ys2 : List Nat) :
    ingestList wb (ys1 ++ ys2) = ingestList wb ys1 ++ ingestList wb ys2 := by
  induction ys1 with
  | nil => rfl
  | cons y ys ih => cases h : processYear wb y <;> simp [ingestList, h, ih]

theorem ingestLog_append (wb : Workbook) (ys1 ys2 : List Nat) :
    ingestLog wb (ys1 ++ ys2) = ingestLog wb ys1 ++ ingestLog wb ys2 := by
  induction ys1 with
  | nil => rfl
  | cons y ys ih => cases h : processYear wb y <;> simp [ingestLog, h, ih]

theorem ingestList_length (wb : Workbook) (ys : List Nat) :
    (ingestList wb ys).length = ys.countP (fun y => ingestOk wb y) := by
  induction ys with
  | nil => rfl
  | cons y ys ih =>
    cases h : processYear wb y <;>
      simp [ingestList, h, ih, ingestOk, List.countP_cons]

/-! Shape of the normalized per-year tables under the documented schemas. -/

theorem normalizeCom_cols (y : Nat) (df : DataFrame) (h : df.cols = commoditySchema) :
    (normalizeCom y df).cols = unifiedCols := by
  obtain ⟨cols, rows⟩ := df
  simp only at h
  subst h
  rfl

theorem normalizeInd_cols (y : Nat) (df : DataFrame) (h : df.cols = industrySchema) :
    (normalizeInd y df).cols = unifiedCols := by
  obtain ⟨cols, rows⟩ := df
  simp only at h
  subst h
  rfl

theorem normalizeCom_rows (y : Nat) (df : DataFrame) (h : df.cols = commoditySchema) :
    (normalizeCom y df).rows
      = df.rows.map (fun r => r ++ [Value.str "Commodity", Value.nat y]) := by
  obtain ⟨cols, rows⟩ := df
  simp only at h
  subst h
  show ((rows.map fun r => r ++ [Value.str "Commodity"]).map
      fun r => r ++ [Value.nat y]) = _
  rw [List.map_map]
  exact List.map_congr_left (fun r _ => by simp)

theorem normalizeInd_rows (y : Nat) (df : DataFrame) (h : df.cols = industrySchema) :
    (normalizeInd y df).rows
      = df.rows.map (fun r => r ++ [Value.str "Industry", Value.nat y]) := by
  obtain ⟨cols, rows⟩ := df
  simp only at h
  subst h
  show ((rows.map fun r => r ++ [Value.str "Industry"]).map
      fun r => r ++ [Value.nat y]) = _
  rw [List.map_map]
  exact List.map_congr_left (fun r _ => by simp)

theorem wellFormedB_iff (df : DataFrame) : wellFormedB df = true ↔ WellFormed df := by
  simp [wellFormedB, WellFormed, List.all_eq_true]

theorem normalizeCom_wf (y : Nat) (df : DataFrame) (h : df.cols = commoditySchema)
    (hwf : WellFormed df) : WellFormed (normalizeCom y df) := by
  intro r hr
  rw [normalizeCom_rows y df h] at hr
  obtain ⟨r0, hr0, rfl⟩ := List.mem_map.1 hr
  have hl := hwf r0 hr0
  rw [h] at hl
  rw [normalizeCom_cols y df h]
  simp [hl]
  rfl

theorem normalizeInd_wf (y : Nat) (df : DataFrame) (h : df.cols = industrySchema)
    (hwf : WellFormed df) : WellFormed (normalizeInd y df) := by
  intro r hr
  rw [normalizeInd_rows y df h] at hr
  obtain ⟨r0, hr0, rfl⟩ := List.mem_map.1 hr
  have hl := hwf r0 hr0
  rw [h] at hl
  rw [normalizeInd_cols y df h]
  simp [hl]
  rfl

/-! Column alignment during concatenation. -/

theorem addCols_of_subset (cs : List String) (a : List String) (h : ∀ c ∈ cs, c ∈ a) :
    addCols a cs = a := by
  induction cs generalizing a with
  | nil => rfl
  | cons c cs ih =>
    show cs.foldl _ (if c ∈ a then a else a ++ [c]) = a
    rw [if_pos (h c (List.mem_cons_self c cs))]
    exact ih a (fun z hz => h z (List.mem_cons_of_mem c hz))

theorem addCols_disjoint (cs : List String) (a : List String) (hnd : cs.Nodup)
    (hd : ∀ c ∈ cs, c ∉ a) : addCols a cs = a ++ cs := by
  induction cs generalizing a with
  | nil => simp [addCols]
  | cons c cs ih =>
    show cs.foldl _ (if c ∈ a then a else a ++ [c]) = a ++ c :: cs
    rw [if_neg (hd c (List.mem_cons_self c cs))]
    have hnotin := (List.nodup_cons.1 hnd).1
    have h2 := ih (a ++ [c]) (List.nodup_cons.1 hnd).2
      (fun z hz => by
        intro hmem
        rcases List.mem_append.1 hmem with h3 | h3
        · exact hd z (List.mem_cons_of_mem c hz) h3
        · exact hnotin (List.mem_singleton.1 h3 ▸ hz))
    have h3 : a ++ [c] ++ cs = a ++ c :: cs := by simp
    exact h2.trans h3

theorem foldl_addCols_self (dfs : List DataFrame) (u : List String)
    (h : ∀ df ∈ dfs, df.cols = u) :
    dfs.foldl (fun a df => addCols a df.cols) u = u := by
  induction dfs with
  | nil => rfl
  | cons d rest ih =>
    rw [List.foldl_cons, h d (List.mem_cons_self d rest),
      addCols_of_subset u u (fun c hc => hc)]
    exact ih (fun df hdf => h df (List.mem_cons_of_mem d hdf))

theorem unionCols_uniform (d : DataFrame) (rest : List DataFrame) (u : List String)
    (hu : u.Nodup) (h : ∀ df ∈ (d :: rest), df.cols = u) :
    unionCols (d :: rest) = u := by
  show rest.foldl _ (addCols [] d.cols) = u
  rw [h d (List.mem_cons_self d rest), addCols_disjoint u [] hu (by simp),
    List.nil_append]
  exact foldl_addCols_self rest u (fun df hdf => h df (List.mem_cons_of_mem d hdf))

theorem reindexRow_self (u : List String) (hu : u.Nodup) (r : Row)
    (hr : r.length = u.length) : reindexRow u u r = r := by
  apply List.ext_getElem
  · simp [reindexRow, hr]
  · intro i h1 h2
    simp only [reindexRow, List.getElem_map]
    rw [getCell, if_pos (List.getElem_mem _)]
    rw [List.indexOf_getElem hu]
    rw [List.getD_eq_getElem?_getD, List.getElem?_eq_getElem h2, Option.getD_some]

theorem concatDF_uniform (d : DataFrame) (rest : List DataFrame) (u : List String)
    (hu : u.Nodup) (hcols : ∀ df ∈ (d :: rest), df.cols = u)
    (hwf : ∀ df ∈ (d :: rest), WellFormed df) :
    concatDF (d :: rest) = Except.ok ⟨u, ((d :: rest).map DataFrame.rows).flatten⟩ := by
  have hun := unionCols_uniform d rest u hu hcols
  have hmap : ((d :: rest).map (fun df => df.rows.map (reindexRow df.cols (unionCols (d :: rest)))))
      = (d :: rest).map DataFrame.rows := by
    apply List.map_congr_left
    intro df hdf
    rw [hun, hcols df hdf]
    have hid : ∀ r ∈ df.rows, reindexRow u u r = r := by
      intro r hrr
      exact reindexRow_self u hu r (by rw [hwf df hdf r hrr, hcols df hdf])
    calc df.rows.map (reindexRow u u) = df.rows.map id := List.map_congr_left hid
      _ = df.rows := List.map_id df.rows
  show Except.ok _ = _
  rw [hmap, hun]

theorem unifiedCols_nodup : unifiedCols.Nodup := by decide

/-! Idempotence of header stripping. -/

theorem dropWhile_idem (p : Char → Bool) (l : List Char) :
    (l.dropWhile p).dropWhile p = l.dropWhile p := by
  induction l with
  | nil => rfl
  | cons c l ih =>
    by_cases h : p c
    · rw [List.dropWhile_cons, if_pos h]
      exact ih
    · rw [List.dropWhile_cons, if_neg h, List.dropWhile_cons, if_neg h]

theorem dropWhile_decomp (p : Char → Bool) (l : List Char) :
    ∃ u, l = u ++ l.dropWhile p := by
  induction l with
  | nil => exact ⟨[], rfl⟩
  | cons c l ih =>
    by_cases h : p c
    · obtain ⟨u, hu⟩ := ih
      refine ⟨c :: u, ?_⟩
      rw [List.dropWhile_cons, if_pos h, List.cons_append, ← hu]
    · refine ⟨[], ?_⟩
      rw [List.dropWhile_cons, if_neg h]
      rfl

theorem dropWhile_head_false (p : Char → Bool) (l : List Char) :
    l.dropWhile p = [] ∨ ∃ c cs, l.dropWhile p = c :: cs ∧ p c = false := by
  induction l with
  | nil => exact Or.inl rfl
  | cons c l ih =>
    by_cases h : p c
    · rw [List.dropWhile_cons, if_pos h]
      exact ih
    · rw [List.dropWhile_cons, if_neg h]
      exact Or.inr ⟨c, l, rfl, Bool.eq_false_iff.2 h⟩

theorem stripList_idem (l : List Char) : stripList (stripList l) = stripList l := by
  have hb : (stripList l).dropWhile isSpaceChar = stripList l := by
    obtain ⟨u, hu⟩ := dropWhile_decomp isSpaceChar (l.dropWhile isSpaceChar).reverse
    have hru : l.dropWhile isSpaceChar = stripList l ++ u.reverse := by
      have h2 := congrArg List.reverse hu
      simpa [stripList, List.reverse_append] using h2
    cases hsl : stripList l with
    | nil => rfl
    | cons c0 m2 =>
      rcases dropWhile_head_false isSpaceChar l with h3 | ⟨c, cs, h3, hpc⟩
      · rw [h3, hsl] at hru
        exact absurd hru (by simp)
      · rw [h3, hsl] at hru
        have hc : c = c0 := by
          have h4 := hru
          rw [List.cons_append] at h4
          exact (List.cons.inj h4).1
        rw [List.dropWhile_cons, if_neg (by rw [← hc, hpc]; exact Bool.false_ne_true)]
  show ((((stripList l).dropWhile isSpaceChar).reverse).dropWhile isSpaceChar).reverse
      = stripList l
  rw [hb]
  have ha : (stripList l).reverse.dropWhile isSpaceChar = (stripList l).reverse := by
    have h5 : (stripList l).reverse
        = ((l.dropWhile isSpaceChar).reverse).dropWhile isSpaceChar := by
      simp [stripList]
    rw [h5]
    exact dropWhile_idem _ _
  rw [ha, List.reverse_reverse]

theorem stripStr_idem (s : String) : stripStr (stripStr s) = stripStr s := by
  show String.mk (stripList (String.mk (stripList s.data)).data) = _
  rw [show (String.mk (stripList s.data)).data = stripList s.data from rfl,
    stripList_idem]
  rfl

theorem commodityRename_values (c c2 : String)
    (h : commodityRename.lookup c = some c2) : c2 = "Code" ∨ c2 = "Name" := by
  simp only [commodityRename, List.lookup] at h
  split at h
  · exact Or.inl (Option.some.inj h).symm
  · split at h
    · exact Or.inr (Option.some.inj h).symm
    · exact absurd h (by simp)

theorem industryRename_values (c c2 : String)
    (h : industryRename.lookup c = some c2) : c2 = "Code" ∨ c2 = "Name" := by
  simp only [industryRename, List.lookup] at h
  split at h
  · exact Or.inl (Option.some.inj h).symm
  · split at h
    · exact Or.inr (Option.some.inj h).symm
    · exact absurd h (by simp)

/-- Claim C8: after normalization no column header of either per-year table
retains leading or trailing whitespace: every header is either freshly
stripped or one of the whitespace-free rename targets. -/
theorem headers_have_no_edge_whitespace (y : Nat) (dfc dfi : DataFrame) :
    (∀ c ∈ (normalizeCom y dfc).cols, stripStr c = c)
    ∧ (∀ c ∈ (normalizeInd y dfi).cols, stripStr c = c) := by
  constructor
  · intro c hc
    obtain ⟨c1, hc1, rfl⟩ := List.mem_map.1 hc
    obtain ⟨c0, hc0, rfl⟩ := List.mem_map.1 hc1
    show stripStr (match commodityRename.lookup (stripStr c0) with
      | some c2 => c2
      | none => stripStr c0) = _
    cases hlk : commodityRename.lookup (stripStr c0) with
    | none => exact stripStr_idem c0
    | some c2 =>
      rcases commodityRename_values _ c2 hlk with rfl | rfl
      · rfl
      · rfl
  · intro c hc
    obtain ⟨c1, hc1, rfl⟩ := List.mem_map.1 hc
    obtain ⟨c0, hc0, rfl⟩ := List.mem_map.1 hc1
    show stripStr (match industryRename.lookup (stripStr c0) with
      | some c2 => c2
      | none => stripStr c0) = _
    cases hlk : industryRename.lookup (stripStr c0) with
    | none => exact stripStr_idem c0
    | some c2 =>
      rcases industryRename_values _ c2 hlk with rfl | rfl
      · rfl
      · rfl

/-- Claim C10: the accumulator is append-only: each iteration of the loop
either appends exactly one entry at the end, leaving every earlier entry in
place and in order, or (on a failed year) leaves the accumulator unchanged. -/
theorem accumulator_append_only (wb : Workbook) (st : IngestState) (y : Nat) :
    (∃ df, processYear wb y = Except.ok df
        ∧ (ingestStep wb st y).all_data = st.all_data ++ [df])
    ∨ ((∃ e, processYear wb y = Except.error e)
        ∧ (ingestStep wb st y).all_data = st.all_data) := by
  cases h : processYear wb y with
  | ok df => exact Or.inl ⟨df, rfl, by simp [ingestStep, h]⟩
  | error e => exact Or.inr ⟨⟨e, rfl⟩, by simp [ingestStep, h]⟩

/-- Claim C1: when ingesting a year fails, the diagnostic naming the year and
the exception message is logged, the failed year contributes nothing to the
accumulator, and entries of the other years are preserved unchanged. -/
theorem year_failure_skipped (wb : Workbook) (ys1 ys2 : List Nat) (y : Nat) (e : String)
    (h : processYear wb y = Except.error e) :
    (ingestLoop wb (ys1 ++ y :: ys2)).all_data
      = (ingestLoop wb ys1).all_data ++ (ingestLoop wb ys2).all_data
    ∧ errMsg y e ∈ (ingestLoop wb (ys1 ++ y :: ys2)).log
    ∧ (∃ p, errMsg y e = p ++ e)
    ∧ (∃ p q, errMsg y e = p ++ toString y ++ q) := by
  refine ⟨?_, ?_, ⟨"Error processing year " ++ toString y ++ ": ", rfl⟩,
    ⟨"Error processing year ", ": " ++ e, ?_⟩⟩
  · simp [ingestLoop_eq, ingestList_append, ingestList, h]
  · simp [ingestLoop_eq, ingestLog_append, ingestLog, h]
  · simp [errMsg, String.append_assoc]

/-- Claim C1 witness: a concrete empty workbook and the year 2013. -/
theorem year_failure_skipped_witness :
    (ingestLoop [] ([] ++ 2013 :: [])).all_data
      = (ingestLoop [] []).all_data ++ (ingestLoop [] []).all_data
    ∧ errMsg 2013 "Worksheet named 2013_Detail_Commodity not found"
        ∈ (ingestLoop [] ([] ++ 2013 :: [])).log
    ∧ (∃ p, errMsg 2013 "Worksheet named 2013_Detail_Commodity not found"
        = p ++ "Worksheet named 2013_Detail_Commodity not found")
    ∧ (∃ p q, errMsg 2013 "Worksheet named 2013_Detail_Commodity not found"
        = p ++ toString 2013 ++ q) :=
  year_failure_skipped [] [] [] 2013 "Worksheet named 2013_Detail_Commodity not found" rfl

/-- Claim C2: the commodity rename maps Commodity Code to Code and Commodity
Name to Name, the industry rename maps Industry Code to Code and Industry
Name to Name, the renaming is total and injective on the documented schemas,
and after stripping and renaming the commodity and industry tables carry the
identical column list. -/
theorem rename_bijective_columns_agree (y : Nat) (rc ri : List Row) :
    commodityRename = [("Commodity Code", "Code"), ("Commodity Name", "Name")]
    ∧ industryRename = [("Industry Code", "Code"), ("Industry Name", "Name")]
    ∧ (normalizeCom y (DataFrame.mk commoditySchema rc)).cols
        = (normalizeInd y (DataFrame.mk industrySchema ri)).cols
    ∧ (normalizeCom y (DataFrame.mk commoditySchema rc)).cols.Nodup := by
  refine ⟨rfl, rfl, ?_, ?_⟩
  · rw [normalizeCom_cols y _ rfl, normalizeInd_cols y _ rfl]
  · rw [normalizeCom_cols y _ rfl]
    decide

/-- Claim C3 counterexample: with one successfully ingested year the
accumulator holds a single entry (the concatenation of the year's two
tables), not two entries. -/
theorem accumulator_not_doubled_counterexample :
    (ingestLoop wbOneYear [2015]).all_data.length = 1
    ∧ ¬ ((ingestLoop wbOneYear [2015]).all_data.length = 2 * 1) := by
  constructor
  · rfl
  · decide

/-- Claim C3 (amended): each successful year appends exactly one entry, the
concatenation of its two normalized tables, so after the loop the
accumulator's length equals the number of successfully ingested years. -/
theorem accumulator_length_successful_years (wb : Workbook) (ys : List Nat) :
    (ingestLoop wb ys).all_data.length = ys.countP (fun y => ingestOk wb y) := by
  rw [ingestLoop_eq]
  exact ingestList_length wb ys

/-! Structure of the accumulator entries and of the combined table. -/

theorem ingestList_eq_filter (wb : Workbook) (ys : List Nat) :
    ingestList wb ys = (ys.filter (fun y => ingestOk wb y)).map (yearEntry wb) := by
  induction ys with
  | nil => rfl
  | cons y ys ih =>
    cases h : processYear wb y with
    | ok df => simp [ingestList, h, ih, ingestOk, yearEntry, List.filter_cons]
    | error e => simp [ingestList, h, ih, ingestOk, List.filter_cons]

theorem processYear_ok_readSheets (wb : Workbook) (y : Nat) (df : DataFrame)
    (h : processYear wb y = Except.ok df) :
    ∃ dfc dfi, readSheet wb (comSheetName y) = Except.ok dfc
      ∧ readSheet wb (indSheetName y) = Except.ok dfi := by
  cases hrc : readSheet wb (comSheetName y) with
  | error e => simp [processYear, hrc] at h
  | ok dfc =>
    cases hri : readSheet wb (indSheetName y) with
    | error e => simp [processYear, hrc, hri] at h
    | ok dfi => exact ⟨dfc, dfi, rfl, rfl⟩

theorem processYear_structure (wb : Workbook) (y : Nat) (dfc dfi : DataFrame)
    (hrc : readSheet wb (comSheetName y) = Except.ok dfc)
    (hri : readSheet wb (indSheetName y) = Except.ok dfi)
    (hcc : dfc.cols = commoditySchema) (hic : dfi.cols = industrySchema)
    (hwc : WellFormed dfc) (hwi : WellFormed dfi) :
    processYear wb y = Except.ok ⟨unifiedCols, comRows wb y ++ indRows wb y⟩
    ∧ WellFormed (DataFrame.mk unifiedCols (comRows wb y ++ indRows wb y)) := by
  have hnc := normalizeCom_cols y dfc hcc
  have hni := normalizeInd_cols y dfi hic
  have hwc2 := normalizeCom_wf y dfc hcc hwc
  have hwi2 := normalizeInd_wf y dfi hic hwi
  have hcols : ∀ df2 ∈ [normalizeCom y dfc, normalizeInd y dfi], df2.cols = unifiedCols := by
    intro df2 hdf2
    simp only [List.mem_cons, List.not_mem_nil, or_false] at hdf2
    rcases hdf2 with rfl | rfl
    · exact hnc
    · exact hni
  have hwfs : ∀ df2 ∈ [normalizeCom y dfc, normalizeInd y dfi], WellFormed df2 := by
    intro df2 hdf2
    simp only [List.mem_cons, List.not_mem_nil, or_false] at hdf2
    rcases hdf2 with rfl | rfl
    · exact hwc2
    · exact hwi2
  have hcat := concatDF_uniform (normalizeCom y dfc) [normalizeInd y dfi] unifiedCols
    unifiedCols_nodup hcols hwfs
  have hrows : (([normalizeCom y dfc, normalizeInd y dfi].map DataFrame.rows).flatten)
      = comRows wb y ++ indRows wb y := by
    simp [comRows, indRows, hrc, hri]
  constructor
  · simp only [processYear, hrc, hri]
    rw [hcat, hrows]
  · intro r hr
    rcases List.mem_append.1 hr with h1 | h1
    · have h2 : r ∈ (normalizeCom y dfc).rows := by
        simpa [comRows, hrc] using h1
      have h3 := hwc2 r h2
      rw [hnc] at h3
      exact h3
    · have h2 : r ∈ (normalizeInd y dfi).rows := by
        simpa [indRows, hri] using h1
      have h3 := hwi2 r h2
      rw [hni] at h3
      exact h3

theorem yearEntry_structure (wb : Workbook) (y : Nat)
    (hcom : goodComSheet wb y = true) (hind : goodIndSheet wb y = true)
    (hok : ingestOk wb y = true) :
    yearEntry wb y = ⟨unifiedCols, comRows wb y ++ indRows wb y⟩
    ∧ WellFormed (yearEntry wb y) := by
  cases hp : processYear wb y with
  | error e => simp [ingestOk, hp] at hok
  | ok df =>
    obtain ⟨dfc, dfi, hrc, hri⟩ := processYear_ok_readSheets wb y df hp
    simp only [goodComSheet, hrc, Bool.and_eq_true, decide_eq_true_eq] at hcom
    simp only [goodIndSheet, hri, Bool.and_eq_true, decide_eq_true_eq] at hind
    have h1 := processYear_structure wb y dfc dfi hrc hri hcom.1 hind.1
      ((wellFormedB_iff dfc).1 hcom.2) ((wellFormedB_iff dfi).1 hind.2)
    have hdf : df = ⟨unifiedCols, comRows wb y ++ indRows wb y⟩ :=
      Except.ok.inj (hp.symm.trans h1.1)
    have h2 : yearEntry wb y = df := by simp [yearEntry, hp]
    refine ⟨h2.trans hdf, ?_⟩
    rw [h2, hdf]
    exact h1.2

theorem combined_ok_structure (wb : Workbook) (ys : List Nat) (d : DataFrame)
    (hcom : ∀ y ∈ ys, goodComSheet wb y = true)
    (hind : ∀ y ∈ ys, goodIndSheet wb y = true)
    (hc : combined wb ys = Except.ok d) :
    d.cols = unifiedCols
    ∧ d.rows = ((ys.filter (fun y => ingestOk wb y)).map
        (fun y => comRows wb y ++ indRows wb y)).flatten := by
  have hentries : (ingestLoop wb ys).all_data
      = (ys.filter (fun y => ingestOk wb y)).map (yearEntry wb) := by
    rw [ingestLoop_eq]
    exact ingestList_eq_filter wb ys
  rw [combined, hentries] at hc
  have hfact : ∀ y ∈ ys.filter (fun y => ingestOk wb y),
      yearEntry wb y = ⟨unifiedCols, comRows wb y ++ indRows wb y⟩
      ∧ WellFormed (yearEntry wb y) := by
    intro y hy
    have hmem := List.mem_filter.1 hy
    exact yearEntry_structure wb y (hcom y hmem.1) (hind y hmem.1) hmem.2
  cases hfl : ys.filter (fun y => ingestOk wb y) with
  | nil =>
    rw [hfl] at hc
    simp [concatDF] at hc
  | cons y0 rest =>
    rw [hfl] at hc hfact
    rw [List.map_cons] at hc
    have hcols2 : ∀ df ∈ yearEntry wb y0 :: rest.map (yearEntry wb),
        df.cols = unifiedCols := by
      intro df hdf
      rw [← List.map_cons] at hdf
      obtain ⟨y, hy, rfl⟩ := List.mem_map.1 hdf
      rw [(hfact y hy).1]
    have hwfs2 : ∀ df ∈ yearEntry wb y0 :: rest.map (yearEntry wb),
        WellFormed df := by
      intro df hdf
      rw [← List.map_cons] at hdf
      obtain ⟨y, hy, rfl⟩ := List.mem_map.1 hdf
      exact (hfact y hy).2
    rw [concatDF_uniform (yearEntry wb y0) (rest.map (yearEntry wb)) unifiedCols
      unifiedCols_nodup hcols2 hwfs2] at hc
    have hd := Except.ok.inj hc
    rw [← hd]
    refine ⟨rfl, ?_⟩
    show ((yearEntry wb y0 :: rest.map (yearEntry wb)).map DataFrame.rows).flatten = _
    congr 1
    rw [← List.map_cons, List.map_map]
    apply List.map_congr_left
    intro y hy
    show (yearEntry wb y).rows = _
    rw [(hfact y hy).1]

/-- Claim C4: row order in the combined table is as appended: one block per
successfully ingested year, blocks in the order the years were processed,
and inside each block all commodity rows precede all industry rows. -/
theorem combined_row_order (wb : Workbook) (ys : List Nat) (d : DataFrame)
    (hcom : ∀ y ∈ ys, goodComSheet wb y = true)
    (hind : ∀ y ∈ ys, goodIndSheet wb y = true)
    (hc : combined wb ys = Except.ok d) :
    d.rows = ((ys.filter (fun y => ingestOk wb y)).map
        (fun y => comRows wb y ++ indRows wb y)).flatten :=
  (combined_ok_structure wb ys d hcom hind hc).2

/-- Claim C4 witness: the sample workbook for the years 2015 and 2016. -/
theorem combined_row_order_witness :
    combinedFull.rows = (([2015, 2016].filter (fun y => ingestOk wbFull y)).map
        (fun y => comRows wbFull y ++ indRows wbFull y)).flatten :=
  combined_row_order wbFull [2015, 2016] combinedFull (by decide) (by decide) rfl

/-! Row counts. -/

theorem setColumn_length (df : DataFrame) (c : String) (v : Value) :
    (setColumn df c v).rows.length = df.rows.length := by
  unfold setColumn
  split <;> simp

theorem normalizeCom_length (y : Nat) (df : DataFrame) :
    (normalizeCom y df).rows.length = df.rows.length := by
  show ((setColumn (setColumn df "Source" (Value.str "Commodity")) "Year"
    (Value.nat y)).rows).length = _
  rw [setColumn_length, setColumn_length]

theorem normalizeInd_length (y : Nat) (df : DataFrame) :
    (normalizeInd y df).rows.length = df.rows.length := by
  show ((setColumn (setColumn df "Source" (Value.str "Industry")) "Year"
    (Value.nat y)).rows).length = _
  rw [setColumn_length, setColumn_length]

theorem concatDF_length (dfs : List DataFrame) (d : DataFrame)
    (h : concatDF dfs = Except.ok d) :
    d.rows.length = (dfs.map (fun df => df.rows.length)).sum := by
  cases dfs with
  | nil => simp [concatDF] at h
  | cons a rest =>
    have h2 : (DataFrame.mk (unionCols (a :: rest))
        (((a :: rest).map (fun df => df.rows.map
          (reindexRow df.cols (unionCols (a :: rest))))).flatten)) = d :=
      Except.ok.inj h
    rw [← h2]
    show (((a :: rest).map (fun df => df.rows.map
      (reindexRow df.cols (unionCols (a :: rest))))).flatten).length = _
    rw [List.length_flatten, List.map_map]
    congr 1
    apply List.map_congr_left
    intro df _
    simp

theorem yearEntry_rowcount (wb : Workbook) (y : Nat) (hok : ingestOk wb y = true) :
    (yearEntry wb y).rows.length
      = sheetRowCount wb (comSheetName y) + sheetRowCount wb (indSheetName y) := by
  cases hp : processYear wb y with
  | error e => simp [ingestOk, hp] at hok
  | ok df =>
    obtain ⟨dfc, dfi, hrc, hri⟩ := processYear_ok_readSheets wb y df hp
    have hp2 : concatDF [normalizeCom y dfc, normalizeInd y dfi] = Except.ok df := by
      rw [← hp]
      simp [processYear, hrc, hri]
    have hlen := concatDF_length _ df hp2
    have h2 : yearEntry wb y = df := by simp [yearEntry, hp]
    rw [h2, hlen]
    simp [normalizeCom_length, normalizeInd_length, sheetRowCount, hrc, hri]

/-- Claim C5 counterexample: in a run where the 2015 commodity sheet is read
successfully but ingestion of 2015 then fails on its missing industry sheet,
the combined table has two rows while the per-sheet row counts of the
successfully read (year, kind) pairs sum to three. -/
theorem rowcount_readpairs_counterexample :
    combined wbMixed [2015, 2016] = Except.ok combinedMixed
    ∧ combinedMixed.rows.length = 2
    ∧ readPairsSum wbMixed [2015, 2016] = 3
    ∧ ¬ (combinedMixed.rows.length = readPairsSum wbMixed [2015, 2016]) := by
  refine ⟨rfl, rfl, rfl, ?_⟩
  decide

/-- Claim C5 (amended): the row count of the combined table equals the sum of
the per-sheet row counts over the (year, kind) pairs of the successfully
ingested years: neither concatenation adds or drops rows. -/
theorem rowcount_preserved (wb : Workbook) (ys : List Nat) (d : DataFrame)
    (hc : combined wb ys = Except.ok d) :
    d.rows.length = ingestedPairsSum wb ys := by
  have hentries : (ingestLoop wb ys).all_data
      = (ys.filter (fun y => ingestOk wb y)).map (yearEntry wb) := by
    rw [ingestLoop_eq]
    exact ingestList_eq_filter wb ys
  rw [combined, hentries] at hc
  have hlen := concatDF_length _ d hc
  rw [hlen, List.map_map]
  unfold ingestedPairsSum
  congr 1
  apply List.map_congr_left
  intro y hy
  show (yearEntry wb y).rows.length = _
  exact yearEntry_rowcount wb y (List.mem_filter.1 hy).2

/-- Claim C5 witness: the one-year workbook. -/
theorem rowcount_preserved_witness :
    combinedOneYear.rows.length = ingestedPairsSum wbOneYear [2015] :=
  rowcount_preserved wbOneYear [2015] combinedOneYear rfl

/-! Tag values of the normalized rows. -/

theorem comRows_shape (wb : Workbook) (y : Nat) (hgood : goodComSheet wb y = true)
    (r : Row) (hr : r ∈ comRows wb y) :
    ∃ r0, r0.length = 13 ∧ r = r0 ++ [Value.str "Commodity", Value.nat y] := by
  cases hrc : readSheet wb (comSheetName y) with
  | error e => simp [comRows, hrc] at hr
  | ok dfc =>
    simp only [goodComSheet, hrc, Bool.and_eq_true, decide_eq_true_eq] at hgood
    simp only [comRows, hrc] at hr
    rw [normalizeCom_rows y dfc hgood.1] at hr
    obtain ⟨r0, h0, rfl⟩ := List.mem_map.1 hr
    have hwf := (wellFormedB_iff dfc).1 hgood.2
    have hl := hwf r0 h0
    rw [hgood.1] at hl
    exact ⟨r0, hl.trans rfl, rfl⟩

theorem indRows_shape (wb : Workbook) (y : Nat) (hgood : goodIndSheet wb y = true)
    (r : Row) (hr : r ∈ indRows wb y) :
    ∃ r0, r0.length = 13 ∧ r = r0 ++ [Value.str "Industry", Value.nat y] := by
  cases hri : readSheet wb (indSheetName y) with
  | error e => simp [indRows, hri] at hr
  | ok dfi =>
    simp only [goodIndSheet, hri, Bool.and_eq_true, decide_eq_true_eq] at hgood
    simp only [indRows, hri] at hr
    rw [normalizeInd_rows y dfi hgood.1] at hr
    obtain ⟨r0, h0, rfl⟩ := List.mem_map.1 hr
    have hwf := (wellFormedB_iff dfi).1 hgood.2
    have hl := hwf r0 h0
    rw [hgood.1] at hl
    exact ⟨r0, hl.trans rfl, rfl⟩

theorem getCell_tags (r0 : Row) (h : r0.length = 13) (a b : Value) :
    getCell unifiedCols (r0 ++ [a, b]) "Source" = a
    ∧ getCell unifiedCols (r0 ++ [a, b]) "Year" = b := by
  constructor
  · rw [getCell, if_pos (by decide)]
    have hidx : unifiedCols.indexOf "Source" = 13 := by decide
    rw [hidx, List.getD_eq_getElem?_getD, List.getElem?_append_right (by omega)]
    simp [h]
  · rw [getCell, if_pos (by decide)]
    have hidx : unifiedCols.indexOf "Year" = 14 := by decide
    rw [hidx, List.getD_eq_getElem?_getD, List.getElem?_append_right (by omega)]
    simp [h]

/-- Claim C6: with years 2015 and 2016 and a workbook offering all four
sheets with the documented schemas so that every read succeeds, every row of
the combined table has its Year cell in the set of the two requested years
and its Source cell equal to one of the two source labels. -/
theorem example_scenario_year_source (wb : Workbook) (d : DataFrame)
    (hcom : ∀ y ∈ [2015, 2016], goodComSheet wb y = true)
    (hind : ∀ y ∈ [2015, 2016], goodIndSheet wb y = true)
    (_hall : ∀ y ∈ [2015, 2016], ingestOk wb y = true)
    (hc : combined wb [2015, 2016] = Except.ok d) :
    ∀ r ∈ d.rows,
      (getCell d.cols r "Year" = Value.nat 2015 ∨ getCell d.cols r "Year" = Value.nat 2016)
      ∧ (getCell d.cols r "Source" = Value.str "Commodity"
          ∨ getCell d.cols r "Source" = Value.str "Industry") := by
  obtain ⟨hcols, hrows⟩ := combined_ok_structure wb [2015, 2016] d hcom hind hc
  intro r hr
  rw [hrows] at hr
  obtain ⟨block, hblock, hrb⟩ := List.mem_flatten.1 hr
  obtain ⟨y, hy, rfl⟩ := List.mem_map.1 hblock
  have hyy : y ∈ [2015, 2016] := (List.mem_filter.1 hy).1
  have hy2 : y = 2015 ∨ y = 2016 := by simpa using hyy
  rw [hcols]
  rcases List.mem_append.1 hrb with hcm | him
  · obtain ⟨r0, h0, rfl⟩ := comRows_shape wb y (hcom y hyy) r hcm
    have hg := getCell_tags r0 h0 (Value.str "Commodity") (Value.nat y)
    refine ⟨?_, Or.inl hg.1⟩
    rcases hy2 with rfl | rfl
    · exact Or.inl hg.2
    · exact Or.inr hg.2
  · obtain ⟨r0, h0, rfl⟩ := indRows_shape wb y (hind y hyy) r him
    have hg := getCell_tags r0 h0 (Value.str "Industry") (Value.nat y)
    refine ⟨?_, Or.inr hg.1⟩
    rcases hy2 with rfl | rfl
    · exact Or.inl hg.2
    · exact Or.inr hg.2

/-- Claim C6 witness: the sample workbook with all four sheets, evaluated at
the first commodity row of 2015. -/
theorem example_scenario_year_source_witness :
    (getCell combinedFull.cols (rowEx ++ [Value.str "Commodity", Value.nat 2015])
        "Year" = Value.nat 2015
      ∨ getCell combinedFull.cols (rowEx ++ [Value.str "Commodity", Value.nat 2015])
        "Year" = Value.nat 2016)
    ∧ (getCell combinedFull.cols (rowEx ++ [Value.str "Commodity", Value.nat 2015])
        "Source" = Value.str "Commodity"
      ∨ getCell combinedFull.cols (rowEx ++ [Value.str "Commodity", Value.nat 2015])
        "Source" = Value.str "Industry") :=
  example_scenario_year_source wbFull combinedFull (by decide) (by decide) (by decide) rfl
    (rowEx ++ [Value.str "Commodity", Value.nat 2015]) (by decide)

/-! Grouping the combined rows by year. -/

theorem flatten_filter_nil (L : List Nat) (F : Nat → List Row) (p : Row → Bool)
    (h : ∀ z ∈ L, (F z).filter p = []) : ((L.map F).flatten).filter p = [] := by
  induction L with
  | nil => rfl
  | cons z L ih =>
    rw [List.map_cons, List.flatten_cons, List.filter_append,
      h z (List.mem_cons_self z L),
      ih (fun w hw => h w (List.mem_cons_of_mem z hw))]
    rfl

theorem flatten_filter_single (L : List Nat) (F : Nat → List Row) (p : Row → Bool)
    (y : Nat) (hnd : L.Nodup) (hy : y ∈ L)
    (hkeep : (F y).filter p = F y)
    (hdrop : ∀ z ∈ L, z ≠ y → (F z).filter p = []) :
    ((L.map F).flatten).filter p = F y := by
  induction L with
  | nil => exact absurd hy (List.not_mem_nil y)
  | cons z L ih =>
    rw [List.map_cons, List.flatten_cons, List.filter_append]
    rcases List.mem_cons.1 hy with rfl | hyL
    · rw [hkeep, flatten_filter_nil L F p (fun w hw => hdrop w (List.mem_cons_of_mem y hw)
        (fun hwy => (List.nodup_cons.1 hnd).1 (hwy ▸ hw)))]
      rw [List.append_nil]
    · have hzy : z ≠ y := by
        intro hzy
        exact (List.nodup_cons.1 hnd).1 (hzy ▸ hyL)
      rw [hdrop z (List.mem_cons_self z L) hzy, List.nil_append]
      exact ih (List.nodup_cons.1 hnd).2 hyL
        (fun w hw hwy => hdrop w (List.mem_cons_of_mem z hw) hwy)

/-- Claim C7: for every successfully ingested year, the rows of the combined
table carrying that Year value are exactly one block of commodity-sourced
rows followed by one block of industry-sourced rows, each row correctly
tagged with its Source label and the year. -/
theorem per_year_row_groups (wb : Workbook) (ys : List Nat) (d : DataFrame)
    (hcom : ∀ y ∈ ys, goodComSheet wb y = true)
    (hind : ∀ y ∈ ys, goodIndSheet wb y = true)
    (hnd : ys.Nodup)
    (hc : combined wb ys = Except.ok d) :
    ∀ y ∈ ys, ingestOk wb y = true →
      d.rows.filter (fun r => decide (getCell d.cols r "Year" = Value.nat y))
        = comRows wb y ++ indRows wb y
      ∧ (∀ r ∈ comRows wb y, getCell d.cols r "Source" = Value.str "Commodity"
          ∧ getCell d.cols r "Year" = Value.nat y)
      ∧ (∀ r ∈ indRows wb y, getCell d.cols r "Source" = Value.str "Industry"
          ∧ getCell d.cols r "Year" = Value.nat y) := by
  obtain ⟨hcols, hrows⟩ := combined_ok_structure wb ys d hcom hind hc
  intro y hy hok
  have htags : ∀ z ∈ ys, ∀ r ∈ comRows wb z ++ indRows wb z,
      (getCell unifiedCols r "Source" = Value.str "Commodity"
        ∨ getCell unifiedCols r "Source" = Value.str "Industry")
      ∧ getCell unifiedCols r "Year" = Value.nat z := by
    intro z hz r hr
    rcases List.mem_append.1 hr with hcm | him
    · obtain ⟨r0, h0, rfl⟩ := comRows_shape wb z (hcom z hz) r hcm
      have hg := getCell_tags r0 h0 (Value.str "Commodity") (Value.nat z)
      exact ⟨Or.inl hg.1, hg.2⟩
    · obtain ⟨r0, h0, rfl⟩ := indRows_shape wb z (hind z hz) r him
      have hg := getCell_tags r0 h0 (Value.str "Industry") (Value.nat z)
      exact ⟨Or.inr hg.1, hg.2⟩
  rw [hcols, hrows]
  refine ⟨?_, ?_, ?_⟩
  · apply flatten_filter_single _ _ _ y (hnd.filter _)
      (List.mem_filter.2 ⟨hy, hok⟩)
    · apply List.filter_eq_self.2
      intro r hr
      have := (htags y hy r hr).2
      simp [this]
    · intro z hz hzy
      have hz2 := (List.mem_filter.1 hz).1
      apply List.filter_eq_nil_iff.2
      intro r hr
      have := (htags z hz2 r hr).2
      simp [this]
      intro hcontra
      exact hzy hcontra
  · intro r hr
    have h1 := htags y hy r (List.mem_append_left _ hr)
    obtain ⟨r0, h0, rfl⟩ := comRows_shape wb y (hcom y hy) r hr
    exact ⟨(getCell_tags r0 h0 _ _).1, (getCell_tags r0 h0 _ _).2⟩
  · intro r hr
    obtain ⟨r0, h0, rfl⟩ := indRows_shape wb y (hind y hy) r hr
    exact ⟨(getCell_tags r0 h0 _ _).1, (getCell_tags r0 h0 _ _).2⟩

/-- Claim C7 witness: the sample workbook, year 2015. -/
theorem per_year_row_groups_witness :
    combinedFull.rows.filter
        (fun r => decide (getCell combinedFull.cols r "Year" = Value.nat 2015))
      = comRows wbFull 2015 ++ indRows wbFull 2015
    ∧ (∀ r ∈ comRows wbFull 2015,
        getCell combinedFull.cols r "Source" = Value.str "Commodity"
        ∧ getCell combinedFull.cols r "Year" = Value.nat 2015)
    ∧ (∀ r ∈ indRows wbFull 2015,
        getCell combinedFull.cols r "Source" = Value.str "Industry"
        ∧ getCell combinedFull.cols r "Year" = Value.nat 2015) :=
  per_year_row_groups wbFull [2015, 2016] combinedFull (by decide) (by decide)
    (by decide) rfl 2015 (by decide) (by decide)

/-- Claim C9: when every configured year fails to ingest, the post-loop
concatenation of the empty accumulator raises instead of returning an empty
combined table. -/
theorem empty_accumulator_halts (wb : Workbook) (ys : List Nat)
    (h : ∀ y ∈ ys, ingestOk wb y = false) :
    combined wb ys = Except.error "No objects to concatenate" := by
  have hl : ingestList wb ys = [] := by
    induction ys with
    | nil => rfl
    | cons y ys ih =>
      have hy := h y (List.mem_cons_self y ys)
      cases hp : processYear wb y with
      | ok df => simp [ingestOk, hp] at hy
      | error e =>
        simp only [ingestList, hp]
        exact ih (fun z hz => h z (List.mem_cons_of_mem y hz))
  simp [combined, ingestLoop_eq, hl, concatDF]

/-- Claim C9 witness: the empty workbook with the single year 2013. -/
theorem empty_accumulator_halts_witness :
    combined [] [2013] = Except.error "No objects to concatenate" :=
  empty_accumulator_halts [] [2013] (by decide)

end GHG
